import Mathlib

/-!
Verification development for the bus-route lookup application
(`bus_routes/views.py` and `bus_routes/models.py`).

The source is embedded shallowly:

* Python strings are modelled as `List Char` (a Python `str` is a sequence
  of code points).
* Django model rows become Lean structures.  A `RouteSegment` row is
  embedded together with its joined `bus_line` / `bus_stop` rows (the
  source always accesses them through `select_related` foreign keys).
* The database is a `Store` holding the three tables as lists, each list
  being in primary-key order (Django's `first()` on an unordered queryset
  orders by primary key, and `Meta.ordering` declarations are reproduced
  explicitly where the source relies on them).
* Sorting performed by the ORM is modelled by the stable
  `List.insertionSort`.
* The external OSRM routing provider is an explicit oracle parameter
  mapping the coordinate sequence sent to it to an abstract response.
* The two `while` loops of `find_shortest_path` are given explicit fuel;
  the fuel is large enough that it can only run out where the Python
  code would not terminate (which the search invariants prevent).
-/

/-- The set of whitespace characters removed by Python's `str.strip()`
(restricted to the ASCII whitespace characters, which are the ones that
occur in the repository's data). -/
def isPySpace (c : Char) : Bool :=
  c = ' ' || c = '\t' || c = '\n' || c = '\r' || c.toNat = 11 || c.toNat = 12

/-- Python `str.strip()`: remove leading and trailing whitespace. -/
def pyStrip (s : List Char) : List Char :=
  ((s.dropWhile isPySpace).reverse.dropWhile isPySpace).reverse

/-- Split a list at the last occurrence of `c`: returns the part before the
last `c` and the part after it, or `none` when `c` does not occur.  This is
the splitting performed by Python's `rsplit(c, 1)` when it finds `c`. -/
def splitAtLast (c : Char) : List Char → Option (List Char × List Char)
  | [] => none
  | a :: t =>
    match splitAtLast c t with
    | some (p, q) => some (a :: p, q)
    | none => if a = c then some ([], t) else none

/-- `parse_stop_name_with_road` (views.py:245-251): if the string contains
`'('` and ends with `')'`, split at the last `'('`; the trimmed part before
it is the stop name and the part after it, with the trailing `')'` removed
and trimmed, is the road name.  Otherwise the whole string is the name and
there is no road name. -/
def parse_stop_name_with_road (full_name : List Char) : List Char × Option (List Char) :=
  if '(' ∈ full_name ∧ full_name.getLast? = some ')' then
    match splitAtLast '(' full_name with
    | some (p, q) => (pyStrip p, some (pyStrip q.dropLast))
    | none => (full_name, none)
  else (full_name, none)

/-- A `BusStop` row (models.py:5-26).  `road_name_*`, `latitude` and
`longitude` are nullable columns; the decimal coordinate columns are
modelled as rationals. -/
structure BusStop where
  id : Nat
  name_mm : List Char
  name_en : List Char
  road_name_mm : Option (List Char)
  road_name_en : Option (List Char)
  latitude : Option ℚ
  longitude : Option ℚ
  deriving DecidableEq

/-- A `BusLine` row (models.py:29-40). -/
structure BusLine where
  id : Nat
  line_number : Int
  deriving DecidableEq

/-- A `RouteSegment` row (models.py:43-58), embedded together with the
rows its two foreign keys reference (the source reads them through
`select_related`). -/
structure RouteSegment where
  bus_line : BusLine
  bus_stop : BusStop
  order : Int
  deriving DecidableEq

/-- The persistent store: the three tables, each list in primary-key
order. -/
structure Store where
  stops : List BusStop
  lines : List BusLine
  segments : List RouteSegment
  deriving DecidableEq

/-- Case-insensitive string equality (`__iexact`). -/
def ieq (a b : List Char) : Bool :=
  a.map Char.toLower == b.map Char.toLower

/-- `__iexact` against a nullable column: a NULL column matches nothing. -/
def optIeq (a : Option (List Char)) (b : List Char) : Bool :=
  match a with
  | some s => ieq s b
  | none => false

/-- The exact (name, road) filter of `get_bus_stop_object`
(views.py:259-260): the English name and road both match, or the Myanmar
name and road both match, case-insensitively. -/
def pairQ (stop_name road_name : List Char) (st : BusStop) : Bool :=
  (ieq st.name_en stop_name && optIeq st.road_name_en road_name) ||
  (ieq st.name_mm stop_name && optIeq st.road_name_mm road_name)

/-- The name-only filter of `get_bus_stop_object` (views.py:257, 262,
273). -/
def nameQ (stop_name : List Char) (st : BusStop) : Bool :=
  ieq st.name_en stop_name || ieq st.name_mm stop_name

/-- The no-road filter of `get_bus_stop_object` (views.py:264-269): the
name matches and the road column of the same language is NULL or the empty
string. -/
def noRoadQ (stop_name : List Char) (st : BusStop) : Bool :=
  (ieq st.name_en stop_name && (st.road_name_en == none || optIeq st.road_name_en [])) ||
  (ieq st.name_mm stop_name && (st.road_name_mm == none || optIeq st.road_name_mm []))

/-- The branch of `get_bus_stop_object` taken when a (truthy) road name was
parsed (views.py:258-262): use the exact (name, road) filter if it matches
anything, otherwise fall back to the name-only filter. -/
def gbsoWithRoad (stops : List BusStop) (stop_name road_name : List Char) : Option BusStop :=
  if (stops.filter (pairQ stop_name road_name)).isEmpty then
    (stops.filter (nameQ stop_name)).head?
  else
    (stops.filter (pairQ stop_name road_name)).head?

/-- The branch of `get_bus_stop_object` taken when no (truthy) road name
was parsed (views.py:263-273): prefer a stop with an absent or empty road
name, otherwise fall back to the name-only filter. -/
def gbsoNoRoad (stops : List BusStop) (stop_name : List Char) : Option BusStop :=
  if (stops.filter (noRoadQ stop_name)).isEmpty then
    (stops.filter (nameQ stop_name)).head?
  else
    (stops.filter (noRoadQ stop_name)).head?

/-- `get_bus_stop_object` (views.py:254-275).  Python's `if road_name:`
treats both `None` and the empty string as falsy. -/
def get_bus_stop_object (stops : List BusStop) (stop_name_raw : List Char) : Option BusStop :=
  let parsed := parse_stop_name_with_road stop_name_raw
  match parsed.2 with
  | some road_name =>
    if road_name = [] then gbsoNoRoad stops parsed.1
    else gbsoWithRoad stops parsed.1 road_name
  | none => gbsoNoRoad stops parsed.1

/-- One entry of the `routes` array of an OSRM response. -/
structure OsrmRoute where
  distance : ℚ
  duration : ℚ
  deriving DecidableEq

/-- Abstract outcome of the HTTP call made by
`get_route_details_from_osrm`.  `transportError` covers the
`requests.exceptions.RequestException` branch (timeouts included);
`malformed` covers the generic `except Exception` branch (JSON decoding
errors, missing keys, non-dict payloads); `payload code routes` is a
successfully decoded body with its `code` field and `routes` array. -/
inductive OsrmResponse where
  | transportError
  | malformed
  | payload (code : List Char) (routes : List OsrmRoute)
  deriving DecidableEq

/-- The routing provider as an oracle: from the coordinate sequence that
the function encodes into the request URL to the response outcome. -/
def OsrmOracle := List (ℚ × ℚ) → OsrmResponse

/-- The pair-validity test of `get_route_details_from_osrm`
(views.py:26): both coordinates present. -/
def validPair (p : Option ℚ × Option ℚ) : Option (ℚ × ℚ) :=
  match p with
  | (some lat, some lon) => some (lat, lon)
  | _ => none

/-- `get_route_details_from_osrm` (views.py:22-55): degrade to
`(none, none)` when fewer than two points are given, when fewer than two
points are usable, on any transport failure, on any malformed response and
on any non-`Ok` or route-less response; on a well-formed `Ok` response
convert the first route's metres to kilometres and seconds to minutes. -/
def get_route_details_from_osrm (oracle : OsrmOracle)
    (coords_list : List (Option ℚ × Option ℚ)) : Option ℚ × Option ℚ :=
  if coords_list.length < 2 then (none, none)
  else
    let valid_coords := coords_list.filterMap validPair
    if valid_coords.length < 2 then (none, none)
    else
      match oracle valid_coords with
      | .transportError => (none, none)
      | .malformed => (none, none)
      | .payload _ [] => (none, none)
      | .payload code (route :: _) =>
        if code = "Ok".data then
          (some (route.distance / 1000), some (route.duration / 60))
        else (none, none)

/-- The `≤`-on-`order` relation used by `order_by('order')`. -/
def orderLe (a b : RouteSegment) : Prop := a.order ≤ b.order

instance : DecidableRel orderLe := fun a b => inferInstanceAs (Decidable (a.order ≤ b.order))

instance : IsTotal RouteSegment orderLe := ⟨fun a b => Int.le_total a.order b.order⟩

instance : IsTrans RouteSegment orderLe := ⟨fun _ _ _ h h' => le_trans h h'⟩

/-- The `≥`-on-`order` relation used by `order_by('-order')`. -/
def orderGe (a b : RouteSegment) : Prop := b.order ≤ a.order

instance : DecidableRel orderGe := fun a b => inferInstanceAs (Decidable (b.order ≤ a.order))

instance : IsTotal RouteSegment orderGe := ⟨fun a b => Int.le_total b.order a.order⟩

instance : IsTrans RouteSegment orderGe := ⟨fun _ _ _ h h' => le_trans h' h⟩

/-- The default ordering of `RouteSegment` querysets
(`Meta.ordering = ['bus_line', 'order']`, models.py:55): by line primary
key, then by order. -/
def segDefaultLe (a b : RouteSegment) : Prop :=
  a.bus_line.id < b.bus_line.id ∨ (a.bus_line.id = b.bus_line.id ∧ a.order ≤ b.order)

instance : DecidableRel segDefaultLe := fun a b =>
  inferInstanceAs (Decidable (_ ∨ _))

instance : IsTotal RouteSegment segDefaultLe := by
  constructor
  intro a b
  rcases Nat.lt_trichotomy a.bus_line.id b.bus_line.id with h | h | h
  · exact Or.inl (Or.inl h)
  · rcases Int.le_total a.order b.order with h' | h'
    · exact Or.inl (Or.inr ⟨h, h'⟩)
    · exact Or.inr (Or.inr ⟨h.symm, h'⟩)
  · exact Or.inr (Or.inl h)

instance : IsTrans RouteSegment segDefaultLe := by
  constructor
  rintro a b c (h | ⟨h, h'⟩) (g | ⟨g, g'⟩)
  · exact Or.inl (lt_trans h g)
  · exact Or.inl (g ▸ h)
  · exact Or.inl (h ▸ g)
  · exact Or.inr ⟨h.trans g, h'.trans g'⟩

/-- `order_by('order')` applied to a list of rows (a stable sort). -/
def sortByOrder (l : List RouteSegment) : List RouteSegment :=
  l.insertionSort orderLe

/-- `order_by('-order')` applied to a list of rows (a stable sort). -/
def sortByOrderDesc (l : List RouteSegment) : List RouteSegment :=
  l.insertionSort orderGe

/-- A `RouteSegment` queryset with no explicit `order_by`, sorted by the
model's default ordering. -/
def sortSegDefault (l : List RouteSegment) : List RouteSegment :=
  l.insertionSort segDefaultLe

/-- `float(value) if value else None` applied to a nullable decimal column
(views.py:382-383): both NULL and the falsy decimal `0` become `None`. -/
def pyFloatOpt (v : Option ℚ) : Option ℚ :=
  match v with
  | some x => if x = 0 then none else some x
  | none => none

/-- One entry of the `route_stops` display list built by
`get_segment_details` (views.py:388-397). -/
structure StopDisplay where
  name_mm : List Char
  name_en : List Char
  road_name_mm : Option (List Char)
  road_name_en : Option (List Char)
  order : Int
  latitude : Option ℚ
  longitude : Option ℚ
  id : Nat
  deriving DecidableEq

/-- The display entry built for one segment of the slice
(views.py:382-397). -/
def displayOf (seg : RouteSegment) : StopDisplay :=
  { name_mm := seg.bus_stop.name_mm
    name_en := seg.bus_stop.name_en
    road_name_mm := seg.bus_stop.road_name_mm
    road_name_en := seg.bus_stop.road_name_en
    order := seg.order
    latitude := pyFloatOpt seg.bus_stop.latitude
    longitude := pyFloatOpt seg.bus_stop.longitude
    id := seg.bus_stop.id }

/-- The coordinate pair contributed by one segment of the slice to the
provider request (views.py:382-386): present only when both converted
coordinates are non-`None`. -/
def coordOf (seg : RouteSegment) : Option (ℚ × ℚ) :=
  match pyFloatOpt seg.bus_stop.latitude, pyFloatOpt seg.bus_stop.longitude with
  | some lat, some lng => some (lat, lng)
  | _, _ => none

/-- `round(x, 2)` (views.py:403), modelled as rational rounding to two
decimal places (Python rounds the binary float half-to-even; no claim
depends on the tie behaviour). -/
def pyRound2 (q : ℚ) : ℚ := (round (q * 100) : ℤ) / 100

/-- `round(x, 0)` (views.py:404), modelled as rational rounding. -/
def pyRound0 (q : ℚ) : ℚ := (round q : ℤ)

/-- The result dictionary of `get_segment_details` (views.py:401-408).
The `'N/A'` sentinel stored when distance or time is unavailable is
modelled by `none`. -/
structure SegmentDetails where
  stops_count : Nat
  total_distance_km : Option ℚ
  total_time_minutes : Option ℚ
  route_stops : List StopDisplay
  start_stop_name : List Char
  end_stop_name : List Char
  deriving DecidableEq

/-- The direction-aware inclusive slice of `get_segment_details`
(views.py:363-374), given the two looked-up segments: the ascending-order
slice between the two orders when the start order is `≤` the end order,
the descending-order slice otherwise. -/
def gsdSlice (store : Store) (bus_line : BusLine) (ss es : RouteSegment) :
    List RouteSegment :=
  if ss.order ≤ es.order then
    sortByOrder (store.segments.filter
      (fun s => s.bus_line.id = bus_line.id ∧ ss.order ≤ s.order ∧ s.order ≤ es.order))
  else
    sortByOrderDesc (store.segments.filter
      (fun s => s.bus_line.id = bus_line.id ∧ s.order ≤ ss.order ∧ es.order ≤ s.order))

/-- The tail of `get_segment_details` (views.py:376-408) once both stop
lookups succeeded: reject an empty slice, annotate the slice through the
provider, and assemble the result dictionary. -/
def gsdBody (oracle : OsrmOracle) (store : Store) (bus_line : BusLine)
    (start_stop end_stop : BusStop) (ss es : RouteSegment) : Option SegmentDetails :=
  let segments := gsdSlice store bus_line ss es
  if segments.isEmpty then none
  else
    let route_stops_coords := segments.filterMap coordOf
    let osrm := get_route_details_from_osrm oracle
      (route_stops_coords.map (fun c => (some c.1, some c.2)))
    some
      { stops_count := segments.length
        total_distance_km := osrm.1.map pyRound2
        total_time_minutes := osrm.2.map pyRound0
        route_stops := segments.map displayOf
        start_stop_name := start_stop.name_en
        end_stop_name := end_stop.name_en }

/-- `get_segment_details` (views.py:356-408): look up the first segment of
each stop on the line (`first()` on the default-ordered queryset), take the
direction-aware inclusive slice between them and annotate it through the
provider. -/
def get_segment_details (oracle : OsrmOracle) (store : Store) (bus_line : BusLine)
    (start_stop end_stop : BusStop) : Option SegmentDetails :=
  let start_segment := (sortSegDefault (store.segments.filter
    (fun s => s.bus_line.id = bus_line.id ∧ s.bus_stop.id = start_stop.id))).head?
  let end_segment := (sortSegDefault (store.segments.filter
    (fun s => s.bus_line.id = bus_line.id ∧ s.bus_stop.id = end_stop.id))).head?
  match start_segment, end_segment with
  | some ss, some es => gsdBody oracle store bus_line start_stop end_stop ss es
  | _, _ => none

/-- The index of the last element satisfying `p`, or `none`.  The source
(views.py:435-439) computes the two stop positions by iterating
`enumerate(route_segments)` and overwriting the recorded position on every
match, which records the last matching index; this recursion yields the
same value. -/
def lastIndexWhere (p : α → Bool) : List α → Option Nat
  | [] => none
  | a :: t =>
    match lastIndexWhere p t with
    | some i => some (i + 1)
    | none => if p a then some 0 else none

/-- One entry of the result list of `find_stops_between`
(views.py:450-455). -/
structure BetweenEntry where
  bus_line : BusLine
  stops : List BusStop
  total_stops : Nat
  orders : List Int
  deriving DecidableEq

/-- The slice taken by `find_stops_between` once both positions are known
(views.py:443-455): swap the positions when the start position is the
larger, then take the inclusive index slice. -/
def fsbBody (route_segments : List RouteSegment) (bus_line : BusLine)
    (sp ep : Nat) : BetweenEntry :=
  let lo := if sp > ep then ep else sp
  let hi := if sp > ep then sp else ep
  let between_segments := (route_segments.drop lo).take (hi + 1 - lo)
  { bus_line := bus_line
    stops := between_segments.map (·.bus_stop)
    total_stops := between_segments.length
    orders := between_segments.map (·.order) }

/-- The per-line body of `find_stops_between` (views.py:426-455): sort the
line's segments by order, locate the (last) positions of the two stops and
take the inclusive index slice between them. -/
def fsbEntry (store : Store) (bus_line : BusLine)
    (start_stop end_stop : BusStop) : Option BetweenEntry :=
  let route_segments := sortByOrder (store.segments.filter
    (fun s => s.bus_line.id = bus_line.id))
  let start_position := lastIndexWhere (fun s => s.bus_stop.id = start_stop.id) route_segments
  let end_position := lastIndexWhere (fun s => s.bus_stop.id = end_stop.id) route_segments
  match start_position, end_position with
  | some sp, some ep => some (fsbBody route_segments bus_line sp ep)
  | _, _ => none

/-- The common-lines filter of `find_stops_between` (views.py:419-423):
lines with a segment at the start stop and a segment at the end stop. -/
def commonLines (store : Store) (start_stop end_stop : BusStop) : List BusLine :=
  store.lines.filter (fun L =>
    (store.segments.any (fun s => s.bus_line.id = L.id && s.bus_stop.id = start_stop.id)) &&
    (store.segments.any (fun s => s.bus_line.id = L.id && s.bus_stop.id = end_stop.id)))

/-- `find_stops_between` (views.py:411-457). -/
def find_stops_between (store : Store) (start_stop end_stop : BusStop) : List BetweenEntry :=
  (commonLines store start_stop end_stop).filterMap
    (fun L => fsbEntry store L start_stop end_stop)

/-- One adjacency record of the request-local graph
(views.py:296-297). -/
structure Adj where
  stop_id : Nat
  line_id : Nat
  line_number : Int
  deriving DecidableEq

/-- `segments_by_line` (views.py:286-288): group the rows in iteration
order into per-line groups, keyed in first-occurrence order, preserving
the per-group row order (a `defaultdict(list)` fill). -/
def groupByLine (segs : List RouteSegment) : List (Nat × List RouteSegment) :=
  segs.foldl (fun acc s => addSeg acc s) []
where
  /-- Append a row to its line's group, creating the group at the end when
  the line is new. -/
  addSeg : List (Nat × List RouteSegment) → RouteSegment → List (Nat × List RouteSegment)
    | [], s => [(s.bus_line.id, [s])]
    | (k, g) :: t, s =>
      if k = s.bus_line.id then (k, g ++ [s]) :: t else (k, g) :: addSeg t s

/-- The undirected line-tagged edges contributed by one line's
order-sorted group (views.py:292-297): each adjacent pair yields one edge
record in each direction, logged in insertion order. -/
def edgesOfGroup (group : List RouteSegment) : List (Nat × Adj) :=
  (group.zip group.tail).foldr
    (fun (p : RouteSegment × RouteSegment) acc =>
      (p.1.bus_stop.id,
        ⟨p.2.bus_stop.id, p.1.bus_line.id, p.1.bus_line.line_number⟩) ::
      (p.2.bus_stop.id,
        ⟨p.1.bus_stop.id, p.1.bus_line.id, p.1.bus_line.line_number⟩) :: acc) []

/-- The full insertion log of the graph build (views.py:282-297): rows
are read in the queryset's default order, grouped by line, each group
sorted by order, and each group's adjacent pairs connected. -/
def buildGraphLog (store : Store) : List (Nat × Adj) :=
  ((groupByLine (sortSegDefault store.segments)).map
    (fun g => edgesOfGroup (sortByOrder g.2))).flatten

/-- The adjacency list of one stop: the edge records logged for it, in
insertion order (`graph[stop_id]` of the `defaultdict(list)`). -/
def adjOf (log : List (Nat × Adj)) (u : Nat) : List Adj :=
  (log.filter (fun e => e.1 = u)).map (·.2)

/-- A priority-queue entry: `(cost, stop_id, line_id)` with the initial
entry carrying no line (views.py:302, 326). -/
def PQEntry := Nat × Nat × Option Nat

instance : DecidableEq PQEntry := inferInstanceAs (DecidableEq (Nat × Nat × Option Nat))

/-- Order on the optional line component used to resolve full ties
deterministically.  (On such a tie CPython's `heapq` would compare `None`
with an `int` and raise; the repository's data never produces one.) -/
def lineLt : Option Nat → Option Nat → Bool
  | none, some _ => true
  | some a, some b => a < b
  | _, none => false

/-- Strict lexicographic order on priority-queue entries: by cost, then
stop id, then line. -/
def pqLt (e f : PQEntry) : Bool :=
  e.1 < f.1 || (e.1 = f.1 && (e.2.1 < f.2.1 || (e.2.1 = f.2.1 && lineLt e.2.2 f.2.2)))

/-- `heapq.heappush`: modelled by keeping the queue as a sorted list, new
entries going after equal ones. -/
def pqPush (e : PQEntry) : List PQEntry → List PQEntry
  | [] => [e]
  | a :: t => if pqLt e a then e :: a :: t else a :: pqPush e t

/-- Best-known cost per stop (views.py:299): `none` is the initial
`float('inf')`. -/
def DistMap := Nat → Option Nat

/-- Predecessor records (views.py:300): `none` is the initial `None`
value, from which reconstruction aborts. -/
def PredMap := Nat → Option (Nat × Nat)

/-- `cost > distances[u]` (views.py:309) against an optional best cost. -/
def costGt (c : Nat) : Option Nat → Bool
  | none => false
  | some d => d < c

/-- `new_cost < distances[v]` (views.py:323) against an optional best
cost. -/
def costLt (c : Nat) : Option Nat → Bool
  | none => true
  | some d => c < d

/-- One relaxation (views.py:316-326): a transfer costs 1 when a line was
already chosen and the edge's line differs; an improving cost updates the
best cost and predecessor of the neighbour and pushes a queue entry. -/
def relaxStep (u : Nat) (cost : Nat) (cl : Option Nat)
    (st : List PQEntry × DistMap × PredMap) (a : Adj) :
    List PQEntry × DistMap × PredMap :=
  let transfer_cost : Nat :=
    match cl with
    | none => 0
    | some l => if l = a.line_id then 0 else 1
  let new_cost := cost + transfer_cost
  if costLt new_cost (st.2.1 a.stop_id) then
    (pqPush (new_cost, a.stop_id, some a.line_id) st.1,
     fun x => if x = a.stop_id then some new_cost else st.2.1 x,
     fun x => if x = a.stop_id then some (u, a.line_id) else st.2.2 x)
  else st

/-- The main search loop (views.py:306-326): pop the least entry, skip it
when stale, succeed when the end stop is popped, otherwise relax every
outgoing edge; fail when the queue empties. -/
def searchLoop (adj : Nat → List Adj) (endId : Nat) :
    Nat → List PQEntry → DistMap → PredMap → Bool × DistMap × PredMap
  | 0, _, dist, preds => (false, dist, preds)
  | _ + 1, [], dist, preds => (false, dist, preds)
  | fuel + 1, (c, u, cl) :: rest, dist, preds =>
    if costGt c (dist u) then searchLoop adj endId fuel rest dist preds
    else if u = endId then (true, dist, preds)
    else
      let st := (adj u).foldl (relaxStep u c cl) (rest, dist, preds)
      searchLoop adj endId fuel st.1 st.2.1 st.2.2

/-- Fuel for the search loop: every pop consumes one unit, every push
follows a strict decrease of a finite best cost, costs are bounded by the
number of edges, and at most `2 * |segments| + 1` stops ever enter the
queue, so the loop always ends with fuel to spare. -/
def searchFuelOf (store : Store) : Nat :=
  (2 * store.segments.length + store.stops.length + 3) *
    (2 * store.segments.length + 3)

/-- `BusLine.objects.filter(id=...).first()` (views.py:338). -/
def lineById (store : Store) (lid : Nat) : Option BusLine :=
  (store.lines.filter (fun L => L.id = lid)).head?

/-- One leg of the reconstructed path (views.py:342-347). -/
structure Leg where
  start_stop_id : Nat
  end_stop_id : Nat
  line_id : Nat
  line_number : Option Int
  deriving DecidableEq

/-- Path reconstruction (views.py:331-353): walk predecessor records back
from the end stop, merging a step into the previous leg when it shares the
leg's line, and abort on a missing predecessor.  The accumulator keeps the
most recent leg first, so on reaching the start stop it is exactly the
reversed (start-to-end) list the source returns.  The source's `while`
loop carries no fuel; the fuel passed in is large enough that it runs out
only if the predecessor records were cyclic, in which case the source
would never terminate. -/
def reconLoop (store : Store) (preds : PredMap) (startId : Nat) :
    Nat → Nat → List Leg → Option (List Leg)
  | fuel, current, acc =>
    if current = startId then some acc
    else
      match fuel with
      | 0 => none
      | fuel + 1 =>
        match preds current with
        | none => none
        | some (prev, lid) =>
          let leg : Leg :=
            ⟨prev, current, lid, (lineById store lid).map (·.line_number)⟩
          match acc with
          | [] => reconLoop store preds startId fuel prev [leg]
          | last :: rest =>
            if last.line_id ≠ lid then
              reconLoop store preds startId fuel prev (leg :: last :: rest)
            else
              reconLoop store preds startId fuel prev
                ({ last with start_stop_id := prev } :: rest)

/-- Fuel for the reconstruction walk: an acyclic predecessor chain visits
each recorded stop at most once and only stops incident to an edge carry a
record. -/
def reconFuelOf (store : Store) : Nat := 2 * store.segments.length + 2

/-- The initial best-cost map (views.py:299-301): `0` for the start stop,
infinity elsewhere. -/
def initDist (startId : Nat) : DistMap :=
  fun x => if x = startId then some 0 else none

/-- The search phase of `find_shortest_path`: the loop's final state from
the initial queue `[(0, start, None)]`. -/
def searchState (store : Store) (startId endId : Nat) : Bool × DistMap × PredMap :=
  searchLoop (adjOf (buildGraphLog store)) endId (searchFuelOf store)
    [(0, startId, none)] (initDist startId) (fun _ => none)

/-- Whether the search popped the end stop (views.py:304-314). -/
def searchFound (store : Store) (startId endId : Nat) : Bool :=
  (searchState store startId endId).1

/-- The reconstruction outcome fed by the search: `none` when the search
failed or a predecessor was missing. -/
def reconResult (store : Store) (startId endId : Nat) : Option (List Leg) :=
  if searchFound store startId endId then
    reconLoop store (searchState store startId endId).2.2 startId
      (reconFuelOf store) endId []
  else none

/-- `find_shortest_path` (views.py:278-353). -/
def find_shortest_path (store : Store) (start_stop_id end_stop_id : Nat) : List Leg :=
  if start_stop_id = end_stop_id then []
  else
    match reconResult store start_stop_id end_stop_id with
    | some path => path
    | none => []

/-- The direct-line query of the route search (views.py:538-542): lines
with a segment at each of the two stops, ordered by line number. -/
def directLines (store : Store) (startId endId : Nat) : List BusLine :=
  (store.lines.filter (fun L =>
    (store.segments.any (fun s => s.bus_line.id = L.id && s.bus_stop.id = startId)) &&
    (store.segments.any (fun s => s.bus_line.id = L.id && s.bus_stop.id = endId)))).insertionSort
    (fun a b => a.line_number ≤ b.line_number)

/-- The three outcomes of the route search (views.py:544-598). -/
inductive RouteResult where
  | direct (lines : List BusLine)
  | transfer (path : List Leg)
  | noRoute
  deriving DecidableEq

/-- The decision core of `search_route`'s `bus_stop` branch
(views.py:538-598): report direct lines when some exist, otherwise run
`find_shortest_path` and test the returned list for truthiness; an empty
list is reported as "no route found".  (The subsequent per-leg annotation
of a transfer result through `get_segment_details` does not affect which
of the three outcomes is chosen, except that it never demotes a non-empty
path to "no route".) -/
def search_route_core (store : Store) (startId endId : Nat) : RouteResult :=
  let direct := directLines store startId endId
  if direct.isEmpty then
    let transfer_path := find_shortest_path store startId endId
    if transfer_path.isEmpty then .noRoute else .transfer transfer_path
  else .direct direct

/-- One step of a walk in the derived graph: the stop moved to and the
line used. -/
def WalkStep := Nat × Nat

instance : DecidableEq WalkStep := inferInstanceAs (DecidableEq (Nat × Nat))

/-- Whether a step sequence is a walk from `u` in the graph log: each step
follows a logged edge of its line from the current stop. -/
def walkOk (log : List (Nat × Adj)) : Nat → List WalkStep → Bool
  | _, [] => true
  | u, (v, l) :: t =>
    (adjOf log u).any (fun a => a.stop_id = v && a.line_id = l) && walkOk log v t

/-- The final stop of a walk starting at `u`. -/
def walkEnd (u : Nat) (steps : List WalkStep) : Nat :=
  match steps.getLast? with
  | some s => s.1
  | none => u

/-- The number of line changes along a walk's steps. -/
def walkTransfers : List WalkStep → Nat
  | [] => 0
  | [_] => 0
  | a :: b :: t => (if a.2 = b.2 then 0 else 1) + walkTransfers (b :: t)

/-- A stop row carrying only an identity (names blank, no road, no
coordinates). -/
def mkStop (i : Nat) : BusStop := ⟨i, [], [], none, none, none, none⟩

/-- Store exhibiting the minimality failure of `find_shortest_path`:
line 1 (id 1) serves stops 1, 2; line 2 (id 2) serves stops 1, 2, 3. -/
def c1store : Store :=
  { stops := [mkStop 1, mkStop 2, mkStop 3]
    lines := [⟨1, 10⟩, ⟨2, 20⟩]
    segments :=
      [⟨⟨1, 10⟩, mkStop 1, 1⟩, ⟨⟨1, 10⟩, mkStop 2, 2⟩,
       ⟨⟨2, 20⟩, mkStop 1, 1⟩, ⟨⟨2, 20⟩, mkStop 2, 2⟩, ⟨⟨2, 20⟩, mkStop 3, 3⟩] }

/-- C1: `find_shortest_path` does not always return a fewest-transfer
path.  In `c1store`, stop 3 is reachable from stop 1 entirely on line 2
(the zero-transfer walk 1 → 2 → 3 exists in the derived graph), yet the
function returns the two-leg path that boards line 1 first and then
transfers to line 2 — one transfer where zero suffice.  The cause is the
relaxation keying the best cost on the stop alone (views.py:323): once
stop 2 is recorded at cost 0 via line 1, the equal-cost arrival via line 2
is discarded, and continuing from stop 2 then charges a transfer. -/
theorem c1_minimality_fails :
    find_shortest_path c1store 1 3 =
      [⟨1, 2, 1, some 10⟩, ⟨2, 3, 2, some 20⟩] ∧
    (find_shortest_path c1store 1 3).length - 1 = 1 ∧
    walkOk (buildGraphLog c1store) 1 [(2, 2), (3, 2)] = true ∧
    walkEnd 1 [(2, 2), (3, 2)] = 3 ∧
    walkTransfers [(2, 2), (3, 2)] = 0 := by
  refine ⟨by decide, by decide, by decide, by decide, by decide⟩

/-- C2: for every store and every stop identity, asking for a path from a
stop to itself returns the empty path immediately (views.py:279-280). -/
theorem c2_same_stop_empty (store : Store) (a : Nat) :
    find_shortest_path store a a = [] := by
  simp [find_shortest_path]

/-- C9: the same empty list stands for three different outcomes of
`find_shortest_path` — identical start and end, a search that exhausts the
queue without popping the end stop, and a reconstruction that hits a
missing predecessor — so the route-search caller, which only tests the
result for truthiness, reports a same-stop query with no direct line as
"no route found". -/
theorem c9_empty_is_ambiguous :
    (∀ store a, find_shortest_path store a a = []) ∧
    (∀ store a b, searchFound store a b = false →
      find_shortest_path store a b = []) ∧
    (∀ store a b, reconResult store a b = none →
      find_shortest_path store a b = []) ∧
    (∀ store a, directLines store a a = [] →
      search_route_core store a a = RouteResult.noRoute) := by
  have hempty : ∀ store a b, reconResult store a b = none →
      find_shortest_path store a b = [] := by
    intro store a b h
    unfold find_shortest_path
    rw [h]
    simp
  refine ⟨?_, ?_, hempty, ?_⟩
  · intro store a
    simp [find_shortest_path]
  · intro store a b h
    apply hempty
    unfold reconResult
    rw [h]
    simp
  · intro store a h
    unfold search_route_core
    rw [h]
    simp [find_shortest_path]

/-- Store for the C9 witness: two isolated stops, no lines, no
segments. -/
def c9store : Store := { stops := [mkStop 1, mkStop 2], lines := [], segments := [] }

/-- Witness for C9: in `c9store` the search from stop 1 to stop 2
exhausts its queue without finding stop 2 and the reconstruction pipeline
yields nothing, both observed as `[]`; and the assembled result of a
same-stop query with no direct line is "no route found". -/
theorem c9_empty_is_ambiguous_witness :
    find_shortest_path c9store 1 2 = [] ∧
    find_shortest_path c9store 1 2 = [] ∧
    search_route_core c9store 1 1 = RouteResult.noRoute :=
  ⟨c9_empty_is_ambiguous.2.1 c9store 1 2 (by decide),
   c9_empty_is_ambiguous.2.2.1 c9store 1 2 (by decide),
   c9_empty_is_ambiguous.2.2.2 c9store 1 (by decide)⟩

/-- C8: the distance/duration lookup degrades to `(none, none)` — and,
being a total function of the transport outcome, never escapes with an
error — whenever fewer than two usable coordinate pairs are supplied, on
any transport failure or timeout, on any malformed response, and on any
decoded response that is not `Ok` with a non-empty route list; only a
well-formed `Ok` response yields numeric kilometres and minutes, converted
from the first route's metres and seconds. -/
theorem c8_osrm_unavailable (oracle : OsrmOracle)
    (coords : List (Option ℚ × Option ℚ)) :
    ((coords.filterMap validPair).length < 2 →
      get_route_details_from_osrm oracle coords = (none, none)) ∧
    (oracle (coords.filterMap validPair) = .transportError →
      get_route_details_from_osrm oracle coords = (none, none)) ∧
    (oracle (coords.filterMap validPair) = .malformed →
      get_route_details_from_osrm oracle coords = (none, none)) ∧
    (∀ code routes, oracle (coords.filterMap validPair) = .payload code routes →
      code ≠ "Ok".data ∨ routes = [] →
      get_route_details_from_osrm oracle coords = (none, none)) ∧
    (∀ code r rs, oracle (coords.filterMap validPair) = .payload code (r :: rs) →
      code = "Ok".data → 2 ≤ (coords.filterMap validPair).length →
      get_route_details_from_osrm oracle coords =
        (some (r.distance / 1000), some (r.duration / 60))) := by
  unfold get_route_details_from_osrm
  by_cases hraw : coords.length < 2
  · have husable : (coords.filterMap validPair).length < 2 :=
      lt_of_le_of_lt (List.length_filterMap_le validPair coords) hraw
    refine ⟨fun _ => by simp [hraw], fun _ => by simp [hraw], fun _ => by simp [hraw],
      fun code routes _ _ => by simp [hraw], fun code r rs _ _ h2 => absurd h2 (by omega)⟩
  · by_cases husable : (coords.filterMap validPair).length < 2
    · refine ⟨fun _ => by simp [hraw, husable], fun _ => by simp [hraw, husable],
        fun _ => by simp [hraw, husable], fun code routes _ _ => by simp [hraw, husable],
        fun code r rs _ _ h2 => absurd h2 (by omega)⟩
    · refine ⟨fun h => absurd h husable, fun h => by simp [hraw, husable, h],
        fun h => by simp [hraw, husable, h], ?_, ?_⟩
      · rintro code routes h (hc | hr)
        · rcases routes with _ | ⟨r, rs⟩
          · simp [hraw, husable, h]
          · simp only [if_neg hraw, if_neg husable, h, if_neg hc]
        · subst hr
          simp [hraw, husable, h]
      · intro code r rs h hc _
        subst hc
        simp [hraw, husable, h]

/-- Always-failing provider outcome. -/
def oracleFail : OsrmOracle := fun _ => .transportError

/-- Always-malformed provider outcome. -/
def oracleMalformed : OsrmOracle := fun _ => .malformed

/-- Provider outcome with a non-`Ok` code. -/
def oracleBadCode : OsrmOracle := fun _ => .payload "NoRoute".data [⟨1, 1⟩]

/-- Well-formed `Ok` provider outcome with no routes. -/
def oracleNoRoutes : OsrmOracle := fun _ => .payload "Ok".data []

/-- Well-formed `Ok` provider outcome: 100 metres, 120 seconds. -/
def oracleOk : OsrmOracle := fun _ => .payload "Ok".data [⟨100, 120⟩]

/-- Coordinate list for the C8 witness: three points of which exactly two
are usable. -/
def c8coords : List (Option ℚ × Option ℚ) :=
  [(some 1, some 2), (none, some 3), (some 4, some 5)]

/-- Witness for C8: each degraded outcome evaluated on concrete inputs,
plus the successful conversion of 100 metres / 120 seconds into 1/10 km /
2 minutes, plus the too-few-points case. -/
theorem c8_osrm_unavailable_witness :
    get_route_details_from_osrm oracleFail c8coords = (none, none) ∧
    get_route_details_from_osrm oracleMalformed c8coords = (none, none) ∧
    get_route_details_from_osrm oracleBadCode c8coords = (none, none) ∧
    get_route_details_from_osrm oracleNoRoutes c8coords = (none, none) ∧
    get_route_details_from_osrm oracleOk c8coords = (some (1 / 10), some 2) ∧
    get_route_details_from_osrm oracleOk [(some 1, some 2)] = (none, none) :=
  ⟨(c8_osrm_unavailable oracleFail c8coords).2.1 rfl,
   (c8_osrm_unavailable oracleMalformed c8coords).2.2.1 rfl,
   (c8_osrm_unavailable oracleBadCode c8coords).2.2.2.1 _ _ rfl (Or.inl (by decide)),
   (c8_osrm_unavailable oracleNoRoutes c8coords).2.2.2.1 _ _ rfl (Or.inr rfl),
   by
    have h := (c8_osrm_unavailable oracleOk c8coords).2.2.2.2 "Ok".data ⟨100, 120⟩ [] rfl rfl
      (by decide)
    rw [h]
    norm_num,
   (c8_osrm_unavailable oracleOk [(some 1, some 2)]).1 (by decide)⟩

/-- Stop with a stored latitude of exactly 0 (both coordinate columns
present). -/
def c10stop1 : BusStop := ⟨1, [], [], none, none, some 0, some 96⟩

/-- Stop with ordinary coordinates. -/
def c10stop2 : BusStop := ⟨2, [], [], none, none, some 16, some 96⟩

/-- Store for C10: one line serving the two stops above. -/
def c10store : Store :=
  { stops := [c10stop1, c10stop2]
    lines := [⟨1, 5⟩]
    segments := [⟨⟨1, 5⟩, c10stop1, 1⟩, ⟨⟨1, 5⟩, c10stop2, 2⟩] }

/-- Always-successful provider outcome for the C10 store. -/
def c10oracle : OsrmOracle := fun _ => .payload "Ok".data [⟨1000, 120⟩]

/-- C10: in the segment extractor a stored coordinate equal to 0 is
treated exactly like an absent coordinate — the falsy value maps to
`None` — so the stop is dropped from the provider's coordinate sequence
and its displayed coordinate is reported absent.  Concretely, in
`c10store` the slice over both stops displays latitude `none` for the
stop stored at latitude 0, and the provider request is left with a single
point, so distance comes back unavailable even though the provider itself
always answers successfully. -/
theorem c10_zero_coordinate_is_absent :
    (∀ seg : RouteSegment, seg.bus_stop.latitude = some 0 →
      (displayOf seg).latitude = none ∧ coordOf seg = none) ∧
    (∀ seg : RouteSegment, seg.bus_stop.longitude = some 0 →
      (displayOf seg).longitude = none ∧ coordOf seg = none) ∧
    (get_segment_details c10oracle c10store ⟨1, 5⟩ c10stop1 c10stop2).map
      (fun r => (r.route_stops.map (·.latitude), r.total_distance_km)) =
      some ([none, some 16], none) := by
  refine ⟨?_, ?_, by decide⟩
  · intro seg h
    constructor
    · simp [displayOf, pyFloatOpt, h]
    · unfold coordOf pyFloatOpt
      rw [h]
      simp
  · intro seg h
    constructor
    · simp [displayOf, pyFloatOpt, h]
    · unfold coordOf pyFloatOpt
      rw [h]
      rcases seg.bus_stop.latitude with _ | v
      · simp
      · by_cases hv : v = 0 <;> simp [hv]

/-- First segment of the C10 store (its stop stores latitude 0). -/
def c10seg1 : RouteSegment := ⟨⟨1, 5⟩, c10stop1, 1⟩

/-- Witness for C10: the zero-latitude stop's display latitude is `none`
and it contributes no coordinate pair. -/
theorem c10_zero_coordinate_is_absent_witness :
    (displayOf c10seg1).latitude = none ∧ coordOf c10seg1 = none :=
  c10_zero_coordinate_is_absent.1 c10seg1 rfl

/-- `splitAtLast` finds nothing when the character does not occur. -/
theorem splitAtLast_of_not_mem {c : Char} :
    ∀ {s : List Char}, c ∉ s → splitAtLast c s = none
  | [], _ => rfl
  | a :: t, h => by
    have ht : c ∉ t := fun hm => h (List.mem_cons_of_mem a hm)
    have ha : a ≠ c := fun he => h (he ▸ List.mem_cons_self a t)
    simp [splitAtLast, splitAtLast_of_not_mem ht, ha]

/-- `splitAtLast` splits exactly at an occurrence that no later
occurrence follows. -/
theorem splitAtLast_eq (c : Char) :
    ∀ (pre suf : List Char), c ∉ suf →
      splitAtLast c (pre ++ c :: suf) = some (pre, suf)
  | [], suf, h => by simp [splitAtLast, splitAtLast_of_not_mem h]
  | a :: pre, suf, h => by
    simp [splitAtLast, splitAtLast_eq c pre suf h]

/-- Every list containing `c` decomposes around the last occurrence of
`c`. -/
theorem exists_last_occurrence {c : Char} :
    ∀ {s : List Char}, c ∈ s →
      ∃ pre suf, s = pre ++ c :: suf ∧ c ∉ suf
  | [], h => absurd h (List.not_mem_nil c)
  | a :: t, h => by
    by_cases ht : c ∈ t
    · obtain ⟨pre, suf, rfl, hns⟩ := exists_last_occurrence ht
      exact ⟨a :: pre, suf, rfl, hns⟩
    · have ha : a = c := by
        rcases List.mem_cons.mp h with h' | h'
        · exact h'.symm
        · exact absurd h' ht
      exact ⟨[], t, by simp [ha], ht⟩

/-- C6: characterisation of `parse_stop_name_with_road`.  When the input
contains `'('` and ends with `')'`, the input decomposes around its last
`'('`, the trimmed part before it is returned as the stop name and the
part after it, with the trailing `')'` removed and trimmed, as the road
name; otherwise the whole input is returned with no road name. -/
theorem c6_parse_stop_name (s : List Char) :
    if '(' ∈ s ∧ s.getLast? = some ')' then
      ∃ pre mid, s = pre ++ '(' :: (mid ++ [')']) ∧ '(' ∉ mid ++ [')'] ∧
        parse_stop_name_with_road s = (pyStrip pre, some (pyStrip mid))
    else parse_stop_name_with_road s = (s, none) := by
  by_cases hc : '(' ∈ s ∧ s.getLast? = some ')'
  · rw [if_pos hc]
    obtain ⟨pre, suf, hs, hns⟩ := exists_last_occurrence hc.1
    have hsuf : suf ≠ [] := by
      intro he
      have h0 : s.getLast? = some '(' := by
        subst he
        rw [hs]
        exact List.getLast?_concat _
      rw [hc.2] at h0
      exact absurd (Option.some.inj h0) (by decide)
    obtain ⟨mid, lastc, hm⟩ := (List.eq_nil_or_concat' suf).resolve_left hsuf
    have hlast : lastc = ')' := by
      have h1 : s.getLast? = some lastc := by
        rw [hs, hm]
        rw [show pre ++ '(' :: (mid ++ [lastc]) = (pre ++ '(' :: mid) ++ [lastc] by simp]
        exact List.getLast?_concat _
      rw [hc.2] at h1
      exact (Option.some.inj h1).symm
    subst hlast
    subst hm
    refine ⟨pre, mid, hs, hns, ?_⟩
    unfold parse_stop_name_with_road
    rw [if_pos hc, hs, splitAtLast_eq '(' pre (mid ++ [')']) hns]
    simp [List.dropLast_concat]
  · rw [if_neg hc]
    unfold parse_stop_name_with_road
    rw [if_neg hc]

/-- C7: resolution of a search string that parses to a name plus a
non-empty road qualifier.  When some stop matches the exact
(name, road) filter (either language, case-insensitively), the first such
stop is returned — in particular the returned stop itself satisfies the
exact filter, so a merely name-matching stop is never preferred; only
when no stop matches the exact filter does resolution fall back to the
first name-only match. -/
theorem c7_road_qualified_resolution (stops : List BusStop) (raw nm rd : List Char)
    (hp : parse_stop_name_with_road raw = (nm, some rd)) (hrd : rd ≠ []) :
    ((stops.filter (pairQ nm rd)).isEmpty = false →
      get_bus_stop_object stops raw = (stops.filter (pairQ nm rd)).head? ∧
      ∀ st ∈ (stops.filter (pairQ nm rd)).head?, pairQ nm rd st = true) ∧
    ((stops.filter (pairQ nm rd)).isEmpty = true →
      get_bus_stop_object stops raw = (stops.filter (nameQ nm)).head?) := by
  have hg : get_bus_stop_object stops raw = gbsoWithRoad stops nm rd := by
    unfold get_bus_stop_object
    rw [hp]
    simp [hrd]
  constructor
  · intro hne
    refine ⟨?_, ?_⟩
    · rw [hg]
      unfold gbsoWithRoad
      rw [hne]
      simp
    · intro st hst
      have hmem : st ∈ stops.filter (pairQ nm rd) := by
        have hh := hst
        rcases he : (stops.filter (pairQ nm rd)) with _ | ⟨x, xs⟩ <;> rw [he] at hh
        · simp at hh
        · simp at hh
          simp [he, hh]
      exact (List.mem_filter.mp hmem).2
  · intro hemp
    rw [hg]
    unfold gbsoWithRoad
    rw [hemp]
    simp

/-- A stop named "Central" on "Other Road" (lower primary key). -/
def c7decoy : BusStop := ⟨1, [], "Central".data, none, some "Other Road".data, none, none⟩

/-- A stop named "Central" on "Main Road". -/
def c7target : BusStop := ⟨2, [], "Central".data, none, some "Main Road".data, none, none⟩

/-- Stop table for the C7 witness, decoy first. -/
def c7stops : List BusStop := [c7decoy, c7target]

/-- Witness for C7: resolving "Central (Main Road)" returns the stop
whose road is "Main Road" even though a stop merely named "Central"
precedes it in the table. -/
theorem c7_road_qualified_resolution_witness :
    get_bus_stop_object c7stops "Central (Main Road)".data = some c7target :=
  ((c7_road_qualified_resolution c7stops "Central (Main Road)".data
      "Central".data "Main Road".data (by decide) (by decide)).1 (by decide)).1.trans
    (by decide)

/-- Adjacent legs use different lines. -/
def legLineNe (a b : Leg) : Prop := a.line_id ≠ b.line_id

/-- Adjacent legs share the intermediate stop. -/
def legChain (a b : Leg) : Prop := a.end_stop_id = b.start_stop_id

/-- Invariants of the reconstruction walk: if the loop returns a leg
list, adjacent legs carry distinct lines, adjacent legs share their
intermediate stop, the first leg starts at the start stop and the last
leg ends at the stop the walk began from. -/
theorem reconLoop_inv (store : Store) (preds : PredMap) (startId endVal : Nat) :
    ∀ (fuel current : Nat) (acc res : List Leg),
      reconLoop store preds startId fuel current acc = some res →
      List.Chain' legLineNe acc →
      List.Chain' legChain acc →
      (∀ h ∈ acc.head?, h.start_stop_id = current) →
      (∀ l ∈ acc.getLast?, l.end_stop_id = endVal) →
      (acc = [] → current = endVal) →
      List.Chain' legLineNe res ∧ List.Chain' legChain res ∧
        (∀ h ∈ res.head?, h.start_stop_id = startId) ∧
        (∀ l ∈ res.getLast?, l.end_stop_id = endVal) := by
  intro fuel
  induction fuel with
  | zero =>
    intro current acc res hres h1 h2 h3 h4 h5
    unfold reconLoop at hres
    by_cases hcur : current = startId
    · rw [if_pos hcur] at hres
      obtain rfl : acc = res := Option.some.inj hres
      exact ⟨h1, h2, fun h hh => (h3 h hh).trans hcur, h4⟩
    · rw [if_neg hcur] at hres
      exact absurd hres (by simp)
  | succ fuel ih =>
    intro current acc res hres h1 h2 h3 h4 h5
    unfold reconLoop at hres
    by_cases hcur : current = startId
    · rw [if_pos hcur] at hres
      obtain rfl : acc = res := Option.some.inj hres
      exact ⟨h1, h2, fun h hh => (h3 h hh).trans hcur, h4⟩
    · rw [if_neg hcur] at hres
      rcases hpred : preds current with _ | ⟨prev, lid⟩ <;> rw [hpred] at hres
      · replace hres : (none : Option (List Leg)) = some res := hres
        exact absurd hres (by simp)
      · rcases acc with _ | ⟨last, rest⟩
        · replace hres : reconLoop store preds startId fuel prev
              [⟨prev, current, lid, (lineById store lid).map (·.line_number)⟩] = some res := hres
          refine ih prev [⟨prev, current, lid, (lineById store lid).map (·.line_number)⟩]
            res hres (List.chain'_singleton _) (List.chain'_singleton _) ?_ ?_ (by simp)
          · intro h hh
            simp only [List.head?_cons, Option.mem_def, Option.some.injEq] at hh
            rw [← hh]
          · intro l hl
            simp only [List.getLast?_singleton, Option.mem_def, Option.some.injEq] at hl
            rw [← hl]
            exact h5 rfl
        · replace hres :
              (if last.line_id ≠ lid then
                reconLoop store preds startId fuel prev
                  (⟨prev, current, lid, (lineById store lid).map (·.line_number)⟩ :: last :: rest)
              else
                reconLoop store preds startId fuel prev
                  ({ last with start_stop_id := prev } :: rest)) = some res := hres
          have hlaststart : last.start_stop_id = current := by
            refine h3 last ?_
            simp only [List.head?_cons, Option.mem_def]
          by_cases hline : last.line_id ≠ lid
          · rw [if_pos hline] at hres
            refine ih prev _ res hres ?_ ?_ ?_ ?_ (by simp)
            · exact List.chain'_cons.mpr ⟨fun he => hline he.symm, h1⟩
            · exact List.chain'_cons.mpr ⟨hlaststart.symm, h2⟩
            · intro h hh
              simp only [List.head?_cons, Option.mem_def, Option.some.injEq] at hh
              rw [← hh]
            · intro l hl
              rw [List.getLast?_cons_cons] at hl
              exact h4 l hl
          · rw [if_neg hline] at hres
            push_neg at hline
            refine ih prev ({ last with start_stop_id := prev } :: rest) res hres ?_ ?_ ?_ ?_
              (by simp)
            · exact List.chain'_cons'.mpr ⟨(List.chain'_cons'.mp h1).1, (List.chain'_cons'.mp h1).2⟩
            · exact List.chain'_cons'.mpr ⟨(List.chain'_cons'.mp h2).1, (List.chain'_cons'.mp h2).2⟩
            · intro h hh
              simp only [List.head?_cons, Option.mem_def, Option.some.injEq] at hh
              rw [← hh]
            · intro l hl
              rcases rest with _ | ⟨r, rs⟩
              · simp only [List.getLast?_singleton, Option.mem_def, Option.some.injEq] at hl
                rw [← hl]
                refine h4 last ?_
                simp only [List.getLast?_singleton, Option.mem_def]
              · rw [List.getLast?_cons_cons] at hl
                refine h4 l ?_
                rw [List.getLast?_cons_cons]
                exact hl

/-- C3: a path returned by `find_shortest_path` never contains two
adjacent legs with the same line identity, and it is in start-to-end
order: adjacent legs share their intermediate stop, the first leg starts
at the requested start stop and the last leg ends at the requested end
stop. -/
theorem c3_merged_ordered_path (store : Store) (a b : Nat) :
    List.Chain' legLineNe (find_shortest_path store a b) ∧
    List.Chain' legChain (find_shortest_path store a b) ∧
    ((find_shortest_path store a b).head?.all fun l => l.start_stop_id == a) = true ∧
    ((find_shortest_path store a b).getLast?.all fun l => l.end_stop_id == b) = true := by
  unfold find_shortest_path
  by_cases hab : a = b
  · simp [hab]
  · rw [if_neg hab]
    rcases hr : reconResult store a b with _ | p
    · simp
    · have hrec : reconLoop store (searchState store a b).2.2 a (reconFuelOf store) b []
          = some p := by
        unfold reconResult at hr
        by_cases hf : searchFound store a b
        · rw [if_pos hf] at hr
          exact hr
        · rw [if_neg hf] at hr
          exact absurd hr (by simp)
      obtain ⟨k1, k2, k3, k4⟩ := reconLoop_inv store (searchState store a b).2.2 a b
        (reconFuelOf store) b [] p hrec (by simp) (by simp) (by simp) (by simp)
        (fun _ => rfl)
      refine ⟨k1, k2, ?_, ?_⟩
      · rcases hp : p.head? with _ | l
        · rfl
        · have := k3 l hp
          simp [Option.all, this]
      · rcases hp : p.getLast? with _ | l
        · rfl
        · have := k4 l hp
          simp [Option.all, this]

/-- An order-sorted segment list whose orders are distinct is strictly
sorted on orders. -/
theorem pairwise_lt_of_sorted_nodup {l : List RouteSegment}
    (hs : l.Pairwise (fun a b => a.order ≤ b.order))
    (hn : (l.map (·.order)).Nodup) :
    l.Pairwise (fun a b => a.order < b.order) := by
  have hne : l.Pairwise (fun a b => a.order ≠ b.order) := by
    rw [List.Nodup, List.pairwise_map] at hn
    exact hn
  exact (hs.and hne).imp (fun h => lt_of_le_of_ne h.1 h.2)

/-- Two order-sorted permutations of each other with distinct orders are
equal: the sorted arrangement of such a list is unique. -/
theorem sorted_perm_nodup_order_eq {l₁ l₂ : List RouteSegment}
    (hp : l₁.Perm l₂)
    (h₁ : l₁.Pairwise (fun a b => a.order ≤ b.order))
    (h₂ : l₂.Pairwise (fun a b => a.order ≤ b.order))
    (hn : (l₁.map (·.order)).Nodup) : l₁ = l₂ := by
  haveI : IsAntisymm RouteSegment (fun a b => a.order < b.order) :=
    ⟨fun _ _ h1 h2 => (lt_asymm h1 h2).elim⟩
  have hn₂ : (l₂.map (·.order)).Nodup := ((hp.map (·.order)).nodup_iff).mp hn
  exact List.eq_of_perm_of_sorted hp (pairwise_lt_of_sorted_nodup h₁ hn)
    (pairwise_lt_of_sorted_nodup h₂ hn₂)

/-- An ascending-sorted and a descending-sorted permutation of the same
distinct-order list are reverses of each other. -/
theorem asc_eq_desc_reverse {F A D : List RouteSegment}
    (hA : A.Perm F) (hD : D.Perm F)
    (hAs : A.Pairwise (fun a b => a.order ≤ b.order))
    (hDs : D.Pairwise (fun a b => b.order ≤ a.order))
    (hn : (F.map (·.order)).Nodup) : A = D.reverse := by
  have hnA : (A.map (·.order)).Nodup := ((hA.map (·.order)).nodup_iff).mpr hn
  have hrev : D.reverse.Pairwise (fun a b => a.order ≤ b.order) :=
    List.pairwise_reverse.mpr hDs
  exact sorted_perm_nodup_order_eq
    ((hA.trans hD.symm).trans (List.reverse_perm D).symm) hAs hrev hnA

/-- A filter over the segment table on a line and an order range equals
the range filter of the line filter (ascending-branch predicate shape,
views.py:363-368). -/
theorem filter_line_range (store : Store) (L : BusLine) (lo hi : Int) :
    store.segments.filter (fun s => s.bus_line.id = L.id ∧ lo ≤ s.order ∧ s.order ≤ hi) =
      (store.segments.filter (fun s => s.bus_line.id = L.id)).filter
        (fun s => lo ≤ s.order ∧ s.order ≤ hi) := by
  rw [List.filter_filter]
  refine (List.filter_congr ?_).symm
  intro x _
  by_cases h1 : x.bus_line.id = L.id <;> by_cases h2 : lo ≤ x.order <;>
    by_cases h3 : x.order ≤ hi <;> simp [h1, h2, h3]

/-- As `filter_line_range` for the descending-branch predicate shape
(views.py:369-374). -/
theorem filter_line_range' (store : Store) (L : BusLine) (lo hi : Int) :
    store.segments.filter (fun s => s.bus_line.id = L.id ∧ s.order ≤ hi ∧ lo ≤ s.order) =
      (store.segments.filter (fun s => s.bus_line.id = L.id)).filter
        (fun s => lo ≤ s.order ∧ s.order ≤ hi) := by
  rw [List.filter_filter]
  refine (List.filter_congr ?_).symm
  intro x _
  by_cases h1 : x.bus_line.id = L.id <;> by_cases h2 : lo ≤ x.order <;>
    by_cases h3 : x.order ≤ hi <;> simp [h1, h2, h3]

/-- `sortByOrder` sorts (as `Pairwise` on orders). -/
theorem sortByOrder_pairwise (l : List RouteSegment) :
    (sortByOrder l).Pairwise (fun a b => a.order ≤ b.order) :=
  (List.sorted_insertionSort orderLe l).imp (fun h => h)

/-- `sortByOrderDesc` sorts descending (as `Pairwise` on orders). -/
theorem sortByOrderDesc_pairwise (l : List RouteSegment) :
    (sortByOrderDesc l).Pairwise (fun a b => b.order ≤ a.order) :=
  (List.sorted_insertionSort orderGe l).imp (fun h => h)

/-- `sortByOrder` permutes. -/
theorem sortByOrder_perm (l : List RouteSegment) : (sortByOrder l).Perm l :=
  List.perm_insertionSort orderLe l

/-- `sortByOrderDesc` permutes. -/
theorem sortByOrderDesc_perm (l : List RouteSegment) : (sortByOrderDesc l).Perm l :=
  List.perm_insertionSort orderGe l

/-- `sortSegDefault` permutes. -/
theorem sortSegDefault_perm (l : List RouteSegment) : (sortSegDefault l).Perm l :=
  List.perm_insertionSort segDefaultLe l

/-- In a strictly order-sorted segment list, the inclusive index slice
from `i` to `j` equals the filter on the inclusive order range from the
`i`-th to the `j`-th order. -/
theorem slice_eq_filter_range (S : List RouteSegment)
    (hs : S.Pairwise (fun a b => a.order < b.order))
    (i j : Nat) (hi : i < S.length) (hj : j < S.length) (hij : i ≤ j) :
    (S.drop i).take (j + 1 - i) =
      S.filter (fun x => S[i].order ≤ x.order ∧ x.order ≤ S[j].order) := by
  have hmono := List.pairwise_iff_getElem.mp hs
  have harith : i + (j + 1 - i) = j + 1 := by omega
  have hS : S = S.take i ++ ((S.drop i).take (j + 1 - i) ++ S.drop (j + 1)) :=
    calc S = S.take i ++ S.drop i := (List.take_append_drop i S).symm
    _ = S.take i ++ ((S.drop i).take (j + 1 - i) ++ (S.drop i).drop (j + 1 - i)) := by
        rw [List.take_append_drop, List.take_append_drop]
        exact (List.take_append_drop i S).symm
    _ = S.take i ++ ((S.drop i).take (j + 1 - i) ++ S.drop (j + 1)) := by
        rw [List.drop_drop, harith]
  have h1 : (S.take i).filter
      (fun x => decide (S[i].order ≤ x.order ∧ x.order ≤ S[j].order)) = [] := by
    rw [List.filter_eq_nil_iff]
    intro x hx
    obtain ⟨m, hm, hget⟩ := List.mem_iff_getElem.mp hx
    have hmi : m < i := by
      have := hm
      simp only [List.length_take] at this
      omega
    have hml : m < S.length := by omega
    have hxm : x = S[m] := by
      rw [← hget]
      exact List.getElem_take ..
    have hlt : S[m].order < S[i].order := hmono m i hml hi hmi
    rw [hxm]
    simp only [decide_eq_true_eq, not_and]
    intro hle
    omega
  have h3 : (S.drop (j + 1)).filter
      (fun x => decide (S[i].order ≤ x.order ∧ x.order ≤ S[j].order)) = [] := by
    rw [List.filter_eq_nil_iff]
    intro x hx
    obtain ⟨m, hm, hget⟩ := List.mem_iff_getElem.mp hx
    have hml : j + 1 + m < S.length := by
      have := hm
      simp only [List.length_drop] at this
      omega
    have hxm : x = S[j + 1 + m] := by
      rw [← hget]
      exact List.getElem_drop ..
    have hlt : S[j].order < S[j + 1 + m].order := hmono j (j + 1 + m) hj hml (by omega)
    rw [hxm]
    simp only [decide_eq_true_eq, not_and]
    intro hle
    omega
  have h2 : ((S.drop i).take (j + 1 - i)).filter
      (fun x => decide (S[i].order ≤ x.order ∧ x.order ≤ S[j].order)) =
      (S.drop i).take (j + 1 - i) := by
    rw [List.filter_eq_self]
    intro x hx
    obtain ⟨m, hm, hget⟩ := List.mem_iff_getElem.mp hx
    have hmlt : m < j + 1 - i := by
      have := hm
      simp only [List.length_take, List.length_drop] at this
      omega
    have himl : i + m < S.length := by
      have := hm
      simp only [List.length_take, List.length_drop] at this
      omega
    have hxm : x = S[i + m] := by
      rw [← hget]
      simp only [List.getElem_take, List.getElem_drop]
    have hle1 : S[i].order ≤ S[i + m].order := by
      rcases Nat.eq_zero_or_pos m with hm0 | hm0
    
      · subst hm0
        simp
      · exact le_of_lt (hmono i (i + m) hi himl (by omega))
    have hle2 : S[i + m].order ≤ S[j].order := by
      rcases Nat.lt_or_ge (i + m) j with hlt | hge
      · exact le_of_lt (hmono (i + m) j himl hj hlt)
      · obtain rfl : j = i + m := by omega
        exact le_refl _
    rw [hxm]
    simp only [decide_eq_true_eq]
    exact ⟨hle1, hle2⟩
  calc (S.drop i).take (j + 1 - i)
      = [] ++ (((S.drop i).take (j + 1 - i)).filter
          (fun x => decide (S[i].order ≤ x.order ∧ x.order ≤ S[j].order)) ++ []) := by
        rw [h2]
        simp
    _ = S.filter (fun x => S[i].order ≤ x.order ∧ x.order ≤ S[j].order) := by
        have hcongr := congrArg
          (List.filter (fun x => decide (S[i].order ≤ x.order ∧ x.order ≤ S[j].order))) hS
        rw [hcongr, List.filter_append, List.filter_append, h1, h3]

/-- `lastIndexWhere` finds nothing when nothing matches. -/
theorem lastIndexWhere_eq_none {α : Type} (p : α → Bool) :
    ∀ l : List α, (∀ x ∈ l, ¬ p x = true) → lastIndexWhere p l = none
  | [], _ => rfl
  | a :: t, h => by
    have ht := lastIndexWhere_eq_none p t (fun y hy => h y (List.mem_cons_of_mem a hy))
    have ha : ¬ p a = true := h a (List.mem_cons_self a t)
    unfold lastIndexWhere
    rw [ht]
    simp [ha]

/-- When exactly one element matches `p`, `lastIndexWhere` returns its
(unique) index. -/
theorem lastIndexWhere_of_filter_singleton {α : Type} (p : α → Bool) :
    ∀ (l : List α) (x : α), l.filter p = [x] →
      ∃ (i : Nat) (hi : i < l.length), l[i] = x ∧ lastIndexWhere p l = some i ∧
        ∀ (j : Nat) (hj : j < l.length), p l[j] = true → j = i := by
  intro l
  induction l with
  | nil =>
    intro x hf
    simp at hf
  | cons a t ih =>
    intro x hf
    by_cases hpa : p a = true
    · rw [List.filter_cons_of_pos hpa] at hf
      have hax : a = x := by
        have := congrArg List.head? hf
        simpa using this
      have hft : t.filter p = [] := by
        have := congrArg List.tail hf
        simpa using this
      have hnone : lastIndexWhere p t = none :=
        lastIndexWhere_eq_none p t (List.filter_eq_nil_iff.mp hft)
      refine ⟨0, by simp, by simpa using hax, ?_, ?_⟩
      · unfold lastIndexWhere
        rw [hnone]
        simp [hpa]
      · intro j hj hpj
        rcases j with _ | m
        · rfl
        · exfalso
          have hmt : m < t.length := by
            simp at hj
            omega
          have : (a :: t)[m + 1] = t[m] := List.getElem_cons_succ ..
          rw [this] at hpj
          exact (List.filter_eq_nil_iff.mp hft) t[m] (t.getElem_mem hmt) hpj
    · rw [List.filter_cons_of_neg hpa] at hf
      obtain ⟨i, hi, hgi, hlast, huniq⟩ := ih x hf
      refine ⟨i + 1, by simp; omega, ?_, ?_, ?_⟩
      · rw [List.getElem_cons_succ]
        exact hgi
      · unfold lastIndexWhere
        rw [hlast]
      · intro j hj hpj
        rcases j with _ | m
        · rw [List.getElem_cons_zero] at hpj
          exact absurd hpj hpa
        · have hmt : m < t.length := by
            simp at hj
            omega
          rw [List.getElem_cons_succ] at hpj
          have := huniq m hmt hpj
          omega

/-- The stop-sequence part of a segment-details result: `none` for an
empty slice (which `get_segment_details` rejects), the display list
otherwise. -/
def sliceOrNone (segs : List RouteSegment) : Option (List StopDisplay) :=
  if segs.isEmpty then none else some (segs.map displayOf)

/-- When both stop lookups succeed, the stop sequence reported by
`get_segment_details` is exactly the display of its direction-aware
slice. -/
theorem gsd_route_stops (oracle : OsrmOracle) (store : Store) (L : BusLine)
    (start_stop end_stop : BusStop) (ss es : RouteSegment)
    (hss : (sortSegDefault (store.segments.filter
      (fun s => s.bus_line.id = L.id ∧ s.bus_stop.id = start_stop.id))).head? = some ss)
    (hes : (sortSegDefault (store.segments.filter
      (fun s => s.bus_line.id = L.id ∧ s.bus_stop.id = end_stop.id))).head? = some es) :
    Option.map (·.route_stops) (get_segment_details oracle store L start_stop end_stop) =
      sliceOrNone (gsdSlice store L ss es) := by
  unfold get_segment_details
  rw [hss, hes]
  show Option.map (·.route_stops) (gsdBody oracle store L start_stop end_stop ss es) = _
  unfold gsdBody
  by_cases hA : (gsdSlice store L ss es).isEmpty
  · simp [sliceOrNone, hA]
  · simp [sliceOrNone, hA]

/-- `get_segment_details` fails when the start stop has no segment on the
line. -/
theorem gsd_none_left (oracle : OsrmOracle) (store : Store) (L : BusLine)
    (start_stop end_stop : BusStop)
    (hss : (sortSegDefault (store.segments.filter
      (fun s => s.bus_line.id = L.id ∧ s.bus_stop.id = start_stop.id))).head? = none) :
    get_segment_details oracle store L start_stop end_stop = none := by
  unfold get_segment_details
  rw [hss]

/-- `get_segment_details` fails when the end stop has no segment on the
line. -/
theorem gsd_none_right (oracle : OsrmOracle) (store : Store) (L : BusLine)
    (start_stop end_stop : BusStop)
    (hes : (sortSegDefault (store.segments.filter
      (fun s => s.bus_line.id = L.id ∧ s.bus_stop.id = end_stop.id))).head? = none) :
    get_segment_details oracle store L start_stop end_stop = none := by
  unfold get_segment_details
  rw [hes]
  rcases (sortSegDefault (store.segments.filter
      (fun s => s.bus_line.id = L.id ∧ s.bus_stop.id = start_stop.id))).head? with _ | s <;> rfl

/-- Reversing the slice reverses the reported stop sequence. -/
theorem sliceOrNone_reverse (D : List RouteSegment) :
    sliceOrNone D.reverse = Option.map List.reverse (sliceOrNone D) := by
  by_cases hD : D = []
  · subst hD
    rfl
  · have h1 : D.isEmpty = false := by simpa [List.isEmpty_iff] using hD
    have h2 : D.reverse.isEmpty = false := by simp [List.isEmpty_iff, hD]
    unfold sliceOrNone
    rw [h1, h2]
    simp [List.map_reverse]

/-- Reversing a list of at most one element is the identity. -/
theorem reverse_eq_self_of_len_le_one {α : Type} {l : List α} (h : l.length ≤ 1) :
    l.reverse = l := by
  rcases l with _ | ⟨a, t⟩
  · rfl
  · rcases t with _ | ⟨b, u⟩
    · rfl
    · simp at h

/-- A segment list with distinct orders all equal to one value has at most
one element. -/
theorem length_le_one_of_const_key {F : List RouteSegment}
    (hnk : (F.map (·.order)).Nodup) (c : Int) (hc : ∀ x ∈ F, x.order = c) :
    F.length ≤ 1 := by
  rcases F with _ | ⟨a, t⟩
  · simp
  · rcases t with _ | ⟨b, u⟩
    · simp
    · exfalso
      have hab : a.order ≠ b.order := by
        have h0 := List.nodup_cons.mp hnk
        intro he
        refine h0.1 ?_
        simp only [List.map_cons, List.mem_cons]
        exact Or.inl he
      rw [hc a (List.mem_cons_self _ _), hc b (List.mem_cons_of_mem _ (List.mem_cons_self _ _))]
        at hab
      exact hab rfl

/-- On a line with distinct orders, the direction-aware slice for a
swapped stop pair is the reverse of the original slice: the two branches
of `gsdSlice` select the same order range and sort it in opposite
directions. -/
theorem gsdSlice_symm (store : Store) (L : BusLine) (sx sy : RouteSegment)
    (hn : ((store.segments.filter (fun s => s.bus_line.id = L.id)).map (·.order)).Nodup) :
    gsdSlice store L sx sy = (gsdSlice store L sy sx).reverse := by
  have hnF : ∀ lo hi : Int,
      (((store.segments.filter (fun s => s.bus_line.id = L.id)).filter
        (fun s => lo ≤ s.order ∧ s.order ≤ hi)).map (·.order)).Nodup := by
    intro lo hi
    exact List.Nodup.sublist ((List.filter_sublist _).map _) hn
  unfold gsdSlice
  by_cases h1 : sx.order ≤ sy.order
  · by_cases h2 : sy.order ≤ sx.order
    · have heq : sx.order = sy.order := le_antisymm h1 h2
      rw [if_pos h1, if_pos h2, heq]
      have hkeys : ∀ x ∈ (store.segments.filter (fun s => s.bus_line.id = L.id)).filter
          (fun s => sy.order ≤ s.order ∧ s.order ≤ sy.order), x.order = sy.order := by
        intro x hx
        have hx2 := (List.mem_filter.mp hx).2
        simp at hx2
        omega
      have hlenF := length_le_one_of_const_key (hnF sy.order sy.order) sy.order hkeys
      have hlenA : (sortByOrder (store.segments.filter
          (fun s => s.bus_line.id = L.id ∧ sy.order ≤ s.order ∧ s.order ≤ sy.order))).length
            ≤ 1 := by
        rw [(sortByOrder_perm _).length_eq, filter_line_range store L sy.order sy.order]
        exact hlenF
      exact (reverse_eq_self_of_len_le_one hlenA).symm
    · rw [if_pos h1, if_neg h2]
      rw [filter_line_range store L sx.order sy.order, filter_line_range' store L sx.order sy.order]
      exact asc_eq_desc_reverse (sortByOrder_perm _) (sortByOrderDesc_perm _)
        (sortByOrder_pairwise _) (sortByOrderDesc_pairwise _) (hnF sx.order sy.order)
  · have h2 : sy.order ≤ sx.order := le_of_not_le h1
    rw [if_neg h1, if_pos h2]
    rw [filter_line_range' store L sy.order sx.order, filter_line_range store L sy.order sx.order]
    rw [asc_eq_desc_reverse (sortByOrder_perm _) (sortByOrderDesc_perm _)
      (sortByOrder_pairwise _) (sortByOrderDesc_pairwise _) (hnF sy.order sx.order),
      List.reverse_reverse]

/-- C4: on any line whose stored orders are distinct (the data model's
"no two stops share an order within a line"), the ordered stop sequence
produced by `get_segment_details` for (X, Y) is the exact reverse of the
sequence produced for (Y, X); when either stop has no segment on the
line, both directions fail alike. -/
theorem c4_segment_slice_symmetry (oracle : OsrmOracle) (store : Store) (L : BusLine)
    (X Y : BusStop)
    (hn : ((store.segments.filter (fun s => s.bus_line.id = L.id)).map (·.order)).Nodup) :
    Option.map (·.route_stops) (get_segment_details oracle store L X Y) =
      Option.map List.reverse
        (Option.map (·.route_stops) (get_segment_details oracle store L Y X)) := by
  rcases hX : (sortSegDefault (store.segments.filter
      (fun s => s.bus_line.id = L.id ∧ s.bus_stop.id = X.id))).head? with _ | sx
  · rw [gsd_none_left oracle store L X Y hX, gsd_none_right oracle store L Y X hX]
    rfl
  · rcases hY : (sortSegDefault (store.segments.filter
        (fun s => s.bus_line.id = L.id ∧ s.bus_stop.id = Y.id))).head? with _ | sy
    · rw [gsd_none_right oracle store L X Y hY, gsd_none_left oracle store L Y X hY]
      rfl
    · rw [gsd_route_stops oracle store L X Y sx sy hX hY,
        gsd_route_stops oracle store L Y X sy sx hY hX,
        gsdSlice_symm store L sx sy hn, sliceOrNone_reverse]

/-- First stop of the C4 witness store. -/
def c4stop1 : BusStop := ⟨1, [], [], none, none, none, none⟩

/-- Second stop of the C4 witness store. -/
def c4stop2 : BusStop := ⟨2, [], [], none, none, none, none⟩

/-- Store for the C4 witness: one line serving two stops at orders 1
and 2. -/
def c4store : Store :=
  { stops := [c4stop1, c4stop2]
    lines := [⟨1, 7⟩]
    segments := [⟨⟨1, 7⟩, c4stop1, 1⟩, ⟨⟨1, 7⟩, c4stop2, 2⟩] }

/-- Failing provider outcome for the C4 witness (the stop sequence does
not depend on the provider). -/
def c4oracle : OsrmOracle := fun _ => .transportError

/-- Witness for C4: on the concrete two-stop line the (stop 1, stop 2)
sequence is the reverse of the (stop 2, stop 1) sequence. -/
theorem c4_segment_slice_symmetry_witness :
    ((c4store.segments.filter (fun s => s.bus_line.id = (⟨1, 7⟩ : BusLine).id)).map
      (·.order)).Nodup ∧
    Option.map (·.route_stops) (get_segment_details c4oracle c4store ⟨1, 7⟩ c4stop1 c4stop2) =
      Option.map List.reverse
        (Option.map (·.route_stops)
          (get_segment_details c4oracle c4store ⟨1, 7⟩ c4stop2 c4stop1)) :=
  ⟨by decide, c4_segment_slice_symmetry c4oracle c4store ⟨1, 7⟩ c4stop1 c4stop2 (by decide)⟩

/-- A filter over the segment table on a line and a stop equals the stop
filter of the line filter. -/
theorem filter_line_stop (store : Store) (L : BusLine) (stop_id : Nat) :
    store.segments.filter (fun s => s.bus_line.id = L.id ∧ s.bus_stop.id = stop_id) =
      (store.segments.filter (fun s => s.bus_line.id = L.id)).filter
        (fun s => s.bus_stop.id = stop_id) := by
  rw [List.filter_filter]
  refine (List.filter_congr ?_).symm
  intro x _
  by_cases h1 : x.bus_line.id = L.id <;> by_cases h2 : x.bus_stop.id = stop_id <;>
    simp [h1, h2]

/-- The position-normalising slice of `find_stops_between` is symmetric
in the two positions. -/
theorem fsbBody_symm (route_segments : List RouteSegment) (bus_line : BusLine)
    (sp ep : Nat) :
    fsbBody route_segments bus_line sp ep = fsbBody route_segments bus_line ep sp := by
  have h1 : (if sp > ep then ep else sp) = (if ep > sp then sp else ep) := by
    by_cases h : sp > ep <;> by_cases h' : ep > sp <;> simp [h, h'] <;> omega
  have h2 : (if sp > ep then sp else ep) = (if ep > sp then ep else sp) := by
    by_cases h : sp > ep <;> by_cases h' : ep > sp <;> simp [h, h'] <;> omega
  unfold fsbBody
  rw [h1, h2]

/-- The per-line entry of `find_stops_between` does not depend on which
of the two stops is given as the start: the source swaps the positions
into ascending order before slicing. -/
theorem fsbEntry_swap (store : Store) (bus_line : BusLine) (a b : BusStop) :
    fsbEntry store bus_line a b = fsbEntry store bus_line b a := by
  rcases ha : lastIndexWhere (fun s => s.bus_stop.id = a.id)
      (sortByOrder (store.segments.filter (fun s => s.bus_line.id = bus_line.id))) with _ | sp <;>
    rcases hb : lastIndexWhere (fun s => s.bus_stop.id = b.id)
      (sortByOrder (store.segments.filter (fun s => s.bus_line.id = bus_line.id))) with _ | ep <;>
    simp only [fsbEntry, ha, hb]
  rw [fsbBody_symm]

/-- Projecting stop identities out of an optional segment-details
result. -/
theorem option_map_proj (G : Option SegmentDetails) :
    Option.map (fun r => r.route_stops.map (·.id)) G =
      Option.map (List.map (·.id)) (Option.map (·.route_stops) G) := by
  rcases G <;> rfl

/-- Core agreement: when each of the two stops appears exactly once on
the line, the line's orders are distinct, and the start stop's order is
`≤` the end stop's order, the stop sequence of the `find_stops_between`
entry equals the stop sequence `get_segment_details` produces for the
same (start, end) pair: the index slice of the order-sorted list and the
sorted order-range filter select the same segments in the same order. -/
theorem fsb_eq_gsd_asc (oracle : OsrmOracle) (store : Store) (L : BusLine)
    (u v : BusStop) (su sv : RouteSegment)
    (hsu : store.segments.filter
      (fun s => s.bus_line.id = L.id ∧ s.bus_stop.id = u.id) = [su])
    (hsv : store.segments.filter
      (fun s => s.bus_line.id = L.id ∧ s.bus_stop.id = v.id) = [sv])
    (hn : ((store.segments.filter (fun s => s.bus_line.id = L.id)).map (·.order)).Nodup)
    (hord : su.order ≤ sv.order) :
    Option.map (fun r => r.stops.map (·.id)) (fsbEntry store L u v) =
      Option.map (fun r => r.route_stops.map (·.id))
        (get_segment_details oracle store L u v) := by
  have hfilSu : (sortByOrder (store.segments.filter
      (fun s => s.bus_line.id = L.id))).filter (fun s => s.bus_stop.id = u.id) = [su] := by
    refine List.perm_singleton.mp ?_
    have hperm := (sortByOrder_perm (store.segments.filter
      (fun s => s.bus_line.id = L.id))).filter (fun s => s.bus_stop.id = u.id)
    rw [← filter_line_stop store L u.id, hsu] at hperm
    exact hperm
  have hfilSv : (sortByOrder (store.segments.filter
      (fun s => s.bus_line.id = L.id))).filter (fun s => s.bus_stop.id = v.id) = [sv] := by
    refine List.perm_singleton.mp ?_
    have hperm := (sortByOrder_perm (store.segments.filter
      (fun s => s.bus_line.id = L.id))).filter (fun s => s.bus_stop.id = v.id)
    rw [← filter_line_stop store L v.id, hsv] at hperm
    exact hperm
  obtain ⟨i, hi, hSi, hlast_u, huniq_u⟩ :=
    lastIndexWhere_of_filter_singleton (fun s => s.bus_stop.id = u.id)
      (sortByOrder (store.segments.filter (fun s => s.bus_line.id = L.id))) su hfilSu
  obtain ⟨j, hj, hSj, hlast_v, huniq_v⟩ :=
    lastIndexWhere_of_filter_singleton (fun s => s.bus_stop.id = v.id)
      (sortByOrder (store.segments.filter (fun s => s.bus_line.id = L.id))) sv hfilSv
  have keysS : ((sortByOrder (store.segments.filter
      (fun s => s.bus_line.id = L.id))).map (·.order)).Nodup :=
    ((sortByOrder_perm _).map (·.order)).nodup_iff.mpr hn
  have Slt := pairwise_lt_of_sorted_nodup (sortByOrder_pairwise
    (store.segments.filter (fun s => s.bus_line.id = L.id))) keysS
  have hmono := List.pairwise_iff_getElem.mp Slt
  have hij : i ≤ j := by
    by_contra hgt
    push_neg at hgt
    have hlt := hmono j i hj hi hgt
    rw [hSi, hSj] at hlt
    omega
  rw [show fsbEntry store L u v = some (fsbBody (sortByOrder (store.segments.filter
      (fun s => s.bus_line.id = L.id))) L i j) by
    simp only [fsbEntry, hlast_u, hlast_v]]
  have hbetween : (fsbBody (sortByOrder (store.segments.filter
      (fun s => s.bus_line.id = L.id))) L i j).stops =
      (((sortByOrder (store.segments.filter (fun s => s.bus_line.id = L.id))).drop i).take
        (j + 1 - i)).map (·.bus_stop) := by
    simp only [fsbBody]
    rw [if_neg (by omega), if_neg (by omega)]
  have hgs : (sortSegDefault (store.segments.filter
      (fun s => s.bus_line.id = L.id ∧ s.bus_stop.id = u.id))).head? = some su := by
    rw [hsu]
    rfl
  have hge : (sortSegDefault (store.segments.filter
      (fun s => s.bus_line.id = L.id ∧ s.bus_stop.id = v.id))).head? = some sv := by
    rw [hsv]
    rfl
  rw [option_map_proj, gsd_route_stops oracle store L u v su sv hgs hge]
  have hslice : gsdSlice store L su sv = sortByOrder (store.segments.filter
      (fun s => s.bus_line.id = L.id ∧ su.order ≤ s.order ∧ s.order ≤ sv.order)) := by
    unfold gsdSlice
    rw [if_pos hord]
  rw [hslice]
  have hfpair : ((sortByOrder (store.segments.filter
      (fun s => s.bus_line.id = L.id))).filter
        (fun x => su.order ≤ x.order ∧ x.order ≤ sv.order)).Pairwise
      (fun a b => a.order ≤ b.order) :=
    List.Pairwise.sublist (List.filter_sublist _) (sortByOrder_pairwise _)
  have hfkeys : (((sortByOrder (store.segments.filter
      (fun s => s.bus_line.id = L.id))).filter
        (fun x => su.order ≤ x.order ∧ x.order ≤ sv.order)).map (·.order)).Nodup :=
    List.Nodup.sublist ((List.filter_sublist _).map _) keysS
  have hperm2 : ((sortByOrder (store.segments.filter
      (fun s => s.bus_line.id = L.id))).filter
        (fun x => su.order ≤ x.order ∧ x.order ≤ sv.order)).Perm
      (sortByOrder (store.segments.filter
        (fun s => s.bus_line.id = L.id ∧ su.order ≤ s.order ∧ s.order ≤ sv.order))) := by
    have h1 := (sortByOrder_perm (store.segments.filter
      (fun s => s.bus_line.id = L.id))).filter
        (fun x => su.order ≤ x.order ∧ x.order ≤ sv.order)
    have h2 := sortByOrder_perm (store.segments.filter
      (fun s => s.bus_line.id = L.id ∧ su.order ≤ s.order ∧ s.order ≤ sv.order))
    have hPF : ((store.segments.filter (fun s => s.bus_line.id = L.id)).filter
        (fun x => su.order ≤ x.order ∧ x.order ≤ sv.order)).Perm
        (store.segments.filter
          (fun s => s.bus_line.id = L.id ∧ su.order ≤ s.order ∧ s.order ≤ sv.order)) := by
      rw [filter_line_range store L su.order sv.order]
    exact (h1.trans hPF).trans h2.symm
  have hagree : ((sortByOrder (store.segments.filter
      (fun s => s.bus_line.id = L.id))).filter
        (fun x => su.order ≤ x.order ∧ x.order ≤ sv.order)) =
      sortByOrder (store.segments.filter
        (fun s => s.bus_line.id = L.id ∧ su.order ≤ s.order ∧ s.order ≤ sv.order)) :=
    sorted_perm_nodup_order_eq hperm2 hfpair (sortByOrder_pairwise _) hfkeys
  have hSi2 : (sortByOrder (store.segments.filter
      (fun s => s.bus_line.id = L.id)))[i].order = su.order := by rw [hSi]
  have hSj2 : (sortByOrder (store.segments.filter
      (fun s => s.bus_line.id = L.id)))[j].order = sv.order := by rw [hSj]
  have hslice2 := slice_eq_filter_range (sortByOrder (store.segments.filter
      (fun s => s.bus_line.id = L.id))) Slt i j hi hj hij
  rw [hSi2, hSj2] at hslice2
  have hsu_mem : su ∈ (sortByOrder (store.segments.filter
      (fun s => s.bus_line.id = L.id))).filter
        (fun x => su.order ≤ x.order ∧ x.order ≤ sv.order) := by
    have h0 : su ∈ store.segments.filter
        (fun s => s.bus_line.id = L.id ∧ s.bus_stop.id = u.id) := by
      rw [hsu]
      exact List.mem_cons_self _ _
    have h1 := List.mem_filter.mp h0
    have h2 : su ∈ store.segments.filter (fun s => s.bus_line.id = L.id) := by
      refine List.mem_filter.mpr ⟨h1.1, ?_⟩
      have := h1.2
      simp at this ⊢
      exact this.1
    refine List.mem_filter.mpr ⟨(sortByOrder_perm _).mem_iff.mpr h2, ?_⟩
    simp [hord]
  have hne : (sortByOrder (store.segments.filter
      (fun s => s.bus_line.id = L.id ∧ su.order ≤ s.order ∧ s.order ≤ sv.order))).isEmpty
        = false := by
    rw [← hagree]
    rcases he : (sortByOrder (store.segments.filter
        (fun s => s.bus_line.id = L.id))).filter
          (fun x => su.order ≤ x.order ∧ x.order ≤ sv.order) with _ | ⟨x, xs⟩
    · rw [he] at hsu_mem
      simp at hsu_mem
    · rw [he]
      rfl
  rw [show sliceOrNone (sortByOrder (store.segments.filter
      (fun s => s.bus_line.id = L.id ∧ su.order ≤ s.order ∧ s.order ≤ sv.order))) =
      some ((sortByOrder (store.segments.filter
        (fun s => s.bus_line.id = L.id ∧ su.order ≤ s.order ∧ s.order ≤ sv.order))).map
          displayOf) by
    unfold sliceOrNone
    rw [hne]
    rfl]
  show some ((fsbBody (sortByOrder (store.segments.filter
      (fun s => s.bus_line.id = L.id))) L i j).stops.map (·.id)) =
    some (((sortByOrder (store.segments.filter
      (fun s => s.bus_line.id = L.id ∧ su.order ≤ s.order ∧ s.order ≤ sv.order))).map
        displayOf).map (·.id))
  rw [hbetween, hslice2, hagree]
  simp only [List.map_map]
  rfl

/-- C5 (amended): `find_stops_between` is exactly the per-line entries
over the common lines, and, for a line on which each stop appears exactly
once and orders are distinct, an entry's stop sequence equals the
sequence `get_segment_details` produces for the pair normalised to
ascending order — the original pair when the start's order is `≤` the
end's order, the swapped pair otherwise. -/
theorem c5_stops_between_normalized (oracle : OsrmOracle) (store : Store) (L : BusLine)
    (start_stop end_stop : BusStop) (ss es : RouteSegment)
    (hss : store.segments.filter
      (fun s => s.bus_line.id = L.id ∧ s.bus_stop.id = start_stop.id) = [ss])
    (hes : store.segments.filter
      (fun s => s.bus_line.id = L.id ∧ s.bus_stop.id = end_stop.id) = [es])
    (hn : ((store.segments.filter (fun s => s.bus_line.id = L.id)).map (·.order)).Nodup) :
    find_stops_between store start_stop end_stop =
      (commonLines store start_stop end_stop).filterMap
        (fun l => fsbEntry store l start_stop end_stop) ∧
    Option.map (fun r => r.stops.map (·.id)) (fsbEntry store L start_stop end_stop) =
      (if ss.order ≤ es.order then
        Option.map (fun r => r.route_stops.map (·.id))
          (get_segment_details oracle store L start_stop end_stop)
      else
        Option.map (fun r => r.route_stops.map (·.id))
          (get_segment_details oracle store L end_stop start_stop)) := by
  refine ⟨rfl, ?_⟩
  by_cases hord : ss.order ≤ es.order
  · rw [if_pos hord]
    exact fsb_eq_gsd_asc oracle store L start_stop end_stop ss es hss hes hn hord
  · rw [if_neg hord, fsbEntry_swap]
    exact fsb_eq_gsd_asc oracle store L end_stop start_stop es ss hes hss hn (by omega)

/-- First stop of the C5 stores. -/
def c5stop1 : BusStop := ⟨1, [], [], none, none, none, none⟩

/-- Second stop of the C5 stores. -/
def c5stop2 : BusStop := ⟨2, [], [], none, none, none, none⟩

/-- Store for C5: one line serving the two stops at orders 1 and 2. -/
def c5store : Store :=
  { stops := [c5stop1, c5stop2]
    lines := [⟨1, 7⟩]
    segments := [⟨⟨1, 7⟩, c5stop1, 1⟩, ⟨⟨1, 7⟩, c5stop2, 2⟩] }

/-- Failing provider outcome for the C5 store (the stop sequences do not
depend on the provider). -/
def c5oracle : OsrmOracle := fun _ => .transportError

/-- C5 counterexample: querying stops-between from stop 2 back to stop 1
reports the ascending sequence [1, 2], while the Segment Extractor's
direction-aware slice for the same (start, end) pair is [2, 1] — the two
are not equal, refuting the claim as stated. -/
theorem c5_counterexample_reversed_query :
    (find_stops_between c5store c5stop2 c5stop1).map (fun r => r.stops.map (·.id)) =
      [[1, 2]] ∧
    Option.map (fun r => r.route_stops.map (·.id))
      (get_segment_details c5oracle c5store ⟨1, 7⟩ c5stop2 c5stop1) = some [2, 1] ∧
    ([1, 2] : List Nat) ≠ [2, 1] := by
  refine ⟨by decide, by decide, by decide⟩

/-- Witness for the amended C5: on the concrete store, the stops-between
entry for the descending query (stop 2 → stop 1) equals the extractor's
sequence for the order-normalised (swapped) pair. -/
theorem c5_stops_between_normalized_witness :
    c5store.segments.filter
      (fun s => s.bus_line.id = (⟨1, 7⟩ : BusLine).id ∧ s.bus_stop.id = c5stop2.id) =
        [⟨⟨1, 7⟩, c5stop2, 2⟩] ∧
    c5store.segments.filter
      (fun s => s.bus_line.id = (⟨1, 7⟩ : BusLine).id ∧ s.bus_stop.id = c5stop1.id) =
        [⟨⟨1, 7⟩, c5stop1, 1⟩] ∧
    ((c5store.segments.filter (fun s => s.bus_line.id = (⟨1, 7⟩ : BusLine).id)).map
      (·.order)).Nodup ∧
    Option.map (fun r => r.stops.map (·.id)) (fsbEntry c5store ⟨1, 7⟩ c5stop2 c5stop1) =
      (if (⟨⟨1, 7⟩, c5stop2, 2⟩ : RouteSegment).order ≤
          (⟨⟨1, 7⟩, c5stop1, 1⟩ : RouteSegment).order then
        Option.map (fun r => r.route_stops.map (·.id))
          (get_segment_details c5oracle c5store ⟨1, 7⟩ c5stop2 c5stop1)
      else
        Option.map (fun r => r.route_stops.map (·.id))
          (get_segment_details c5oracle c5store ⟨1, 7⟩ c5stop1 c5stop2)) :=
  ⟨by decide, by decide, by decide,
    (c5_stops_between_normalized c5oracle c5store ⟨1, 7⟩ c5stop2 c5stop1
      ⟨⟨1, 7⟩, c5stop2, 2⟩ ⟨⟨1, 7⟩, c5stop1, 1⟩ (by decide) (by decide) (by decide)).2⟩
